import Mathlib

/-!
Shallow embedding of the LC-3 virtual machine implemented in `src/C/lc3.c`
(the file `src/C/main.c` and the unnamed draft are earlier, non-compiling
sketches of the same program; `lc3.c` is the complete interpreter).

Machine words are 16-bit; we model them as `Nat` with explicit `% 65536`
at every store, mirroring `uint16_t` assignment.  Host console interaction
(`check_key`, `getchar`) is modelled by an oracle `Host` holding the
successive poll results and the successive characters delivered by stdin.
`abort()` on a reserved opcode is modelled by the step function returning
`none`.
-/

/-- keyboard status register address (`MR_KBSR`). -/
def MR_KBSR : Nat := 0xFE00

/-- keyboard data register address (`MR_KBDR`). -/
def MR_KBDR : Nat := 0xFE02

/-- index of `R0` in the register file. -/
def R_R0 : Nat := 0

/-- index of `R7` in the register file. -/
def R_R7 : Nat := 7

/-- index of the program counter in the register file (`R_PC`). -/
def R_PC : Nat := 8

/-- index of the condition-flag register in the register file (`R_COND`). -/
def R_COND : Nat := 9

/-- positive condition flag (`FL_POS = 1 << 0`). -/
def FL_POS : Nat := 1

/-- zero condition flag (`FL_ZRO = 1 << 1`). -/
def FL_ZRO : Nat := 2

/-- negative condition flag (`FL_NEG = 1 << 2`). -/
def FL_NEG : Nat := 4

def OP_BR : Nat := 0
def OP_ADD : Nat := 1
def OP_LD : Nat := 2
def OP_ST : Nat := 3
def OP_JSR : Nat := 4
def OP_AND : Nat := 5
def OP_LDR : Nat := 6
def OP_STR : Nat := 7
def OP_RTI : Nat := 8
def OP_NOT : Nat := 9
def OP_LDI : Nat := 10
def OP_STI : Nat := 11
def OP_JMP : Nat := 12
def OP_RES : Nat := 13
def OP_LEA : Nat := 14
def OP_TRAP : Nat := 15

def TRAP_GETC : Nat := 0x20
def TRAP_OUT : Nat := 0x21
def TRAP_PUTS : Nat := 0x22
def TRAP_IN : Nat := 0x23
def TRAP_PUTSP : Nat := 0x24
def TRAP_HALT : Nat := 0x25

/-- Host console oracle: `polls` are the successive results of `check_key`
(a `select` on stdin), `chars` the successive values returned by `getchar`.
An exhausted `chars` list models `getchar` returning `EOF` (`-1`, which the
`uint16_t` stores read back as `0xFFFF`). -/
structure Host where
  polls : List Bool
  chars : List Nat
deriving DecidableEq

/-- the non-blocking key poll `check_key` (consumes one oracle entry). -/
def check_key (h : Host) : Bool × Host :=
  match h.polls with
  | [] => (false, h)
  | p :: ps => (p, { h with polls := ps })

/-- one `getchar()` call against the oracle. -/
def host_getchar (h : Host) : Nat × Host :=
  match h.chars with
  | [] => (0xFFFF, h)
  | c :: cs => (c, { h with chars := cs })

/-- Machine state: the register file `reg` (indices `0..7` are `R0..R7`,
`8` is `PC`, `9` is `COND`, exactly as the C `reg[R_COUNT]` array), the
65536-word `memory`, and the interpreter's `running` flag. -/
structure Machine where
  reg : Nat → Nat
  memory : Nat → Nat
  running : Bool

/-- store a value into the register file; the `% 65536` models the
`uint16_t` cell. -/
def regWrite (r : Nat → Nat) (i v : Nat) : Nat → Nat :=
  fun j => if j = i then v % 65536 else r j

/-- `mem_write`: store a word (truncated to 16 bits by the `uint16_t`
parameter) at an address. -/
def mem_write (m : Nat → Nat) (address data : Nat) : Nat → Nat :=
  fun a => if a = address then data % 65536 else m a

/-- `mem_read`: reading `MR_KBSR` polls the host; a pending key latches
`1 << 15` into the status register and the character into `MR_KBDR`,
otherwise the status register is zeroed.  The returned word is the memory
cell after these updates, as in the C code.  All other addresses are plain
reads with no side effect. -/
def mem_read (m : Nat → Nat) (h : Host) (address : Nat) :
    Nat × (Nat → Nat) × Host :=
  if address = MR_KBSR then
    let ck := check_key h
    if ck.1 then
      let gc := host_getchar ck.2
      let m1 := mem_write (mem_write m MR_KBSR 32768) MR_KBDR gc.1
      (m1 address, m1, gc.2)
    else
      let m1 := mem_write m MR_KBSR 0
      (m1 address, m1, ck.2)
  else (m address, m, h)

/-- `update_flags`: recompute `COND` from register `r` (zero, sign bit, or
positive). -/
def update_flags (r : Nat → Nat) (i : Nat) : Nat → Nat :=
  if r i = 0 then regWrite r R_COND FL_ZRO
  else if r i >>> 15 ≠ 0 then regWrite r R_COND FL_NEG
  else regWrite r R_COND FL_POS

/-- `sign_extend` from `lc3.c`: if bit `bit_count - 1` of `x` is set, OR in
the high mask `0xFFFF << bit_count` (the `uint16_t` result truncates to
16 bits). -/
def sign_extend (x : Nat) (bit_count : Nat) : Nat :=
  if (x >>> (bit_count - 1)) &&& 1 ≠ 0 then
    (x ||| (0xFFFF <<< bit_count)) % 65536
  else x

/-- `swap16`: byte-swap a 16-bit word. -/
def swap16 (x : Nat) : Nat :=
  ((x <<< 8) ||| (x >>> 8)) % 65536

/-- the `OP_ADD` case: destination `DR`, source `SR1`, and either `imm5`
sign-extended or `SR2`; flags updated from the destination. -/
def exec_add (instr : Nat) (s : Machine) : Machine :=
  let r0 := (instr >>> 9) &&& 0x7
  let r1 := (instr >>> 6) &&& 0x7
  let imm_flag := (instr >>> 5) &&& 0x1
  let reg1 :=
    if imm_flag ≠ 0 then
      regWrite s.reg r0 (s.reg r1 + sign_extend (instr &&& 0x1F) 5)
    else
      regWrite s.reg r0 (s.reg r1 + s.reg (instr &&& 0x7))
  { s with reg := update_flags reg1 r0 }

/-- the `OP_AND` case: same operand layout as `OP_ADD`, bitwise AND. -/
def exec_and (instr : Nat) (s : Machine) : Machine :=
  let r0 := (instr >>> 9) &&& 0x7
  let r1 := (instr >>> 6) &&& 0x7
  let imm_flag := (instr >>> 5) &&& 0x1
  let reg1 :=
    if imm_flag ≠ 0 then
      regWrite s.reg r0 (s.reg r1 &&& sign_extend (instr &&& 0x1F) 5)
    else
      regWrite s.reg r0 (s.reg r1 &&& s.reg (instr &&& 0x7))
  { s with reg := update_flags reg1 r0 }

/-- the `OP_NOT` case: bitwise complement (`~` on a `uint16_t` value,
truncated back to 16 bits, is XOR with `0xFFFF`). -/
def exec_not (instr : Nat) (s : Machine) : Machine :=
  let r0 := (instr >>> 9) &&& 0x7
  let r1 := (instr >>> 6) &&& 0x7
  { s with reg := update_flags (regWrite s.reg r0 (0xFFFF ^^^ s.reg r1)) r0 }

/-- the `OP_BR` case: add the sign-extended `PCoffset9` to `PC` when the
instruction's `nzp` bits meet `COND`. -/
def exec_br (instr : Nat) (s : Machine) : Machine :=
  let pc_offset := sign_extend (instr &&& 0x1FF) 9
  let cond_flag := (instr >>> 9) &&& 0x7
  if cond_flag &&& s.reg R_COND ≠ 0 then
    { s with reg := regWrite s.reg R_PC (s.reg R_PC + pc_offset) }
  else s

/-- the `OP_JMP` case (also `RET`): `PC := R[BaseR]`. -/
def exec_jmp (instr : Nat) (s : Machine) : Machine :=
  { s with reg := regWrite s.reg R_PC (s.reg ((instr >>> 6) &&& 0x7)) }

/-- the `OP_JSR` case: save the incremented `PC` in `R7` first, then jump
to `R[BaseR]` (bit 11 clear) or add the sign-extended `PCoffset11`. -/
def exec_jsr (instr : Nat) (s : Machine) : Machine :=
  let bit11 := (instr >>> 11) &&& 0x1
  let reg1 := regWrite s.reg R_R7 (s.reg R_PC)
  if bit11 = 0 then
    { s with reg := regWrite reg1 R_PC (reg1 ((instr >>> 6) &&& 0x7)) }
  else
    { s with reg :=
        regWrite reg1 R_PC (reg1 R_PC + sign_extend (instr &&& 0x7FF) 11) }

/-- the `OP_LD` case: load from `PC + sext(PCoffset9)` (a `mem_read`, so
the keyboard device can fire), set flags. -/
def exec_ld (instr : Nat) (h : Host) (s : Machine) : Machine × Host :=
  let r0 := (instr >>> 9) &&& 0x7
  let pc_offset := sign_extend (instr &&& 0x1FF) 9
  let t := mem_read s.memory h ((s.reg R_PC + pc_offset) % 65536)
  ({ s with memory := t.2.1,
            reg := update_flags (regWrite s.reg r0 t.1) r0 }, t.2.2)

/-- the `OP_LDI` case: two chained `mem_read`s, set flags. -/
def exec_ldi (instr : Nat) (h : Host) (s : Machine) : Machine × Host :=
  let r0 := (instr >>> 9) &&& 0x7
  let pc_offset := sign_extend (instr &&& 0x1FF) 9
  let t1 := mem_read s.memory h ((s.reg R_PC + pc_offset) % 65536)
  let t2 := mem_read t1.2.1 t1.2.2 (t1.1 % 65536)
  ({ s with memory := t2.2.1,
            reg := update_flags (regWrite s.reg r0 t2.1) r0 }, t2.2.2)

/-- the `OP_LDR` case: load from `R[BaseR] + sext(offset6)`, set flags. -/
def exec_ldr (instr : Nat) (h : Host) (s : Machine) : Machine × Host :=
  let r0 := (instr >>> 9) &&& 0x7
  let r1 := (instr >>> 6) &&& 0x7
  let pc_offset := sign_extend (instr &&& 0x3F) 6
  let t := mem_read s.memory h ((s.reg r1 + pc_offset) % 65536)
  ({ s with memory := t.2.1,
            reg := update_flags (regWrite s.reg r0 t.1) r0 }, t.2.2)

/-- the `OP_LEA` case: `R[DR] := PC + sext(PCoffset9)`, set flags. -/
def exec_lea (instr : Nat) (s : Machine) : Machine :=
  let r0 := (instr >>> 9) &&& 0x7
  let pc_offset := sign_extend (instr &&& 0x1FF) 9
  { s with reg := update_flags (regWrite s.reg r0 (s.reg R_PC + pc_offset)) r0 }

/-- the `OP_ST` case: store `R[SR]` at `PC + sext(PCoffset9)`. -/
def exec_st (instr : Nat) (s : Machine) : Machine :=
  let r1 := (instr >>> 9) &&& 0x7
  let pc_offset := sign_extend (instr &&& 0x1FF) 9
  { s with memory := mem_write s.memory ((s.reg R_PC + pc_offset) % 65536) (s.reg r1) }

/-- the `OP_STI` case: read the pointer word at `PC + sext(PCoffset9)` (a
`mem_read`), then store `R[SR]` there. -/
def exec_sti (instr : Nat) (h : Host) (s : Machine) : Machine × Host :=
  let r1 := (instr >>> 9) &&& 0x7
  let pc_offset := sign_extend (instr &&& 0x1FF) 9
  let t := mem_read s.memory h ((s.reg R_PC + pc_offset) % 65536)
  ({ s with memory := mem_write t.2.1 (t.1 % 65536) (s.reg r1) }, t.2.2)

/-- the `OP_STR` case: store `R[SR]` at `R[BaseR] + sext(offset6)`. -/
def exec_str (instr : Nat) (s : Machine) : Machine :=
  let r1 := (instr >>> 9) &&& 0x7
  let r2 := (instr >>> 6) &&& 0x7
  let pc_offset := sign_extend (instr &&& 0x3F) 6
  { s with memory := mem_write s.memory ((s.reg r2 + pc_offset) % 65536) (s.reg r1) }

/-- the `OP_TRAP` case: `R7 := PC`, then dispatch on the low 8 bits.
`GETC` reads a character into `R0` (flags updated); `IN` reads a character
through a signed `char` local, so bytes `≥ 0x80` sign-extend into `R0`;
`OUT`, `PUTS` and `PUTSP` only write to the host console and leave the
machine state alone; `HALT` clears the running flag.  Any other trap code
falls through the `switch` with no effect beyond the `R7` write. -/
def exec_trap (instr : Nat) (h : Host) (s : Machine) : Machine × Host :=
  let s1 : Machine := { s with reg := regWrite s.reg R_R7 (s.reg R_PC) }
  let t := instr &&& 0xFF
  if t = TRAP_GETC then
    let gc := host_getchar h
    ({ s1 with reg := update_flags (regWrite s1.reg R_R0 gc.1) R_R0 }, gc.2)
  else if t = TRAP_OUT then (s1, h)
  else if t = TRAP_PUTS then (s1, h)
  else if t = TRAP_IN then
    let gc := host_getchar h
    let c := gc.1 % 256
    let v := if 128 ≤ c then c + 0xFF00 else c
    ({ s1 with reg := update_flags (regWrite s1.reg R_R0 v) R_R0 }, gc.2)
  else if t = TRAP_PUTSP then (s1, h)
  else if t = TRAP_HALT then ({ s1 with running := false }, h)
  else (s1, h)

/-- dispatch on the top 4 bits of the fetched instruction; `none` models
the `abort()` on `OP_RES`, `OP_RTI` and the (unreachable for 16-bit
words) `default` arm. -/
def execute (instr : Nat) (h1 : Host) (s1 : Machine) :
    Option (Machine × Host) :=
  let op := instr >>> 12
  if op = OP_ADD then some (exec_add instr s1, h1)
  else if op = OP_AND then some (exec_and instr s1, h1)
  else if op = OP_NOT then some (exec_not instr s1, h1)
  else if op = OP_BR then some (exec_br instr s1, h1)
  else if op = OP_JMP then some (exec_jmp instr s1, h1)
  else if op = OP_JSR then some (exec_jsr instr s1, h1)
  else if op = OP_LD then some (exec_ld instr h1 s1)
  else if op = OP_LDI then some (exec_ldi instr h1 s1)
  else if op = OP_LDR then some (exec_ldr instr h1 s1)
  else if op = OP_LEA then some (exec_lea instr s1, h1)
  else if op = OP_ST then some (exec_st instr s1, h1)
  else if op = OP_STI then some (exec_sti instr h1 s1)
  else if op = OP_STR then some (exec_str instr s1, h1)
  else if op = OP_TRAP then some (exec_trap instr h1 s1)
  else none

/-- one iteration of the interpreter loop: `instr = mem_read(reg[R_PC]++)`
(the fetch is a `mem_read`, so it too can fire the keyboard device), then
dispatch.  `none` models `abort()`. -/
def step (h : Host) (s : Machine) : Option (Machine × Host) :=
  let t := mem_read s.memory h (s.reg R_PC)
  execute t.1 t.2.2
    { s with memory := t.2.1, reg := regWrite s.reg R_PC (s.reg R_PC + 1) }

/-- the word the fetch of `step` reads at `PC`. -/
def fetched (h : Host) (s : Machine) : Nat :=
  (mem_read s.memory h (s.reg R_PC)).1

/-- register `i` after one step (`none` when the step aborts). -/
def stepReg (h : Host) (s : Machine) (i : Nat) : Option Nat :=
  (step h s).map fun p => p.1.reg i

/-- memory word `a` after one step (`none` when the step aborts). -/
def stepMem (h : Host) (s : Machine) (a : Nat) : Option Nat :=
  (step h s).map fun p => p.1.memory a

/-- the running flag after one step (`none` when the step aborts). -/
def stepRunning (h : Host) (s : Machine) : Option Bool :=
  (step h s).map fun p => p.1.running

/-- the image loader's fill loop: `fread` of up to `cnt` big-endian words
into successive addresses from `addr`, composed with the byte-swap pass
(`*p = swap16(*p)`), so each stored word is `b0 * 256 + b1`; stops at
end-of-stream, and a trailing odd byte is dropped. -/
def load_words (m : Nat → Nat) (addr cnt : Nat) (bytes : List Nat) :
    Nat → Nat :=
  match cnt, bytes with
  | c + 1, b0 :: b1 :: rest =>
      load_words (mem_write m addr ((b0 % 256) * 256 + (b1 % 256))) (addr + 1) c rest
  | _, _ => m

/-- `read_image_file`: the first two bytes, read little-endian into a
`uint16_t` and passed through `swap16`, give the origin; then at most
`max_read = (uint16_t)(MEMORY_MAX - origin)` words are read.  A stream
shorter than two bytes leaves `origin` unread and fills nothing (the C
reads an indeterminate origin; no bytes remain to store). -/
def read_image_file (m : Nat → Nat) (bytes : List Nat) : Nat → Nat :=
  match bytes with
  | b0 :: b1 :: rest =>
      let origin := swap16 ((b0 % 256) + 256 * (b1 % 256))
      let max_read := (65536 - origin) % 65536
      load_words m origin max_read rest
  | _ => m

/-! ### Concrete fixtures used by the witness theorems -/

/-- host oracle with no input at all. -/
def host0 : Host := { polls := [], chars := [] }

/-- host oracle whose first poll reports no key pending. -/
def hostNoKey : Host := { polls := [false], chars := [] }

/-- host oracle with one pending key delivering character `b`. -/
def hostKey (b : Nat) : Host := { polls := [true], chars := [b] }

/-- all-zero memory. -/
def mem0 : Nat → Nat := fun _ => 0

/-- register file with `PC = 0x3000` and `COND = FL_ZRO`, as at reset. -/
def baseReg : Nat → Nat := fun i => if i = 8 then 12288 else if i = 9 then 2 else 0

/-- memory holding the single word `w` at address `0x3000`. -/
def baseMem (w : Nat) : Nat → Nat := fun a => if a = 12288 then w else 0

/-- machine about to execute the word `w` placed at `PC = 0x3000`. -/
def baseMachine (w : Nat) : Machine :=
  { reg := baseReg, memory := baseMem w, running := true }

/-- machine with `R7 = 0x1234` about to execute `JSRR R7` (`0x41C0`). -/
def jsrrMachine : Machine :=
  { reg := fun i => if i = 8 then 12288 else if i = 7 then 4660 else if i = 9 then 2 else 0,
    memory := baseMem 16832, running := true }

/-! ### Toolkit lemmas -/

theorem regWrite_eq (r : Nat → Nat) (i v : Nat) : regWrite r i v i = v % 65536 := by
  simp [regWrite]

theorem regWrite_ne (r : Nat → Nat) (i v j : Nat) (h : j ≠ i) :
    regWrite r i v j = r j := by
  simp [regWrite, h]

theorem update_flags_ne (r : Nat → Nat) (i j : Nat) (h : j ≠ R_COND) :
    update_flags r i j = r j := by
  unfold update_flags
  split_ifs <;> exact regWrite_ne _ _ _ _ h

theorem update_flags_cond (r : Nat → Nat) (i : Nat) :
    update_flags r i R_COND =
      if r i = 0 then FL_ZRO else if r i >>> 15 ≠ 0 then FL_NEG else FL_POS := by
  unfold update_flags
  split_ifs <;> simp_all [regWrite_eq, FL_ZRO, FL_NEG, FL_POS]

theorem mem_read_frame (m : Nat → Nat) (h : Host) (addr a : Nat)
    (h1 : a ≠ MR_KBSR) (h2 : a ≠ MR_KBDR) :
    (mem_read m h addr).2.1 a = m a := by
  unfold mem_read
  by_cases hA : addr = MR_KBSR
  · by_cases hK : (check_key h).1 = true
    · simp [hA, hK, mem_write, h1, h2]
    · simp [hA, hK, mem_write, h1]
  · simp [hA]

theorem mem_read_plain (m : Nat → Nat) (h : Host) (addr : Nat)
    (hA : addr ≠ MR_KBSR) : mem_read m h addr = (m addr, m, h) := by
  unfold mem_read
  simp [hA]

theorem mem_write_lt (m : Nat → Nat) (a d : Nat) (hm : ∀ x, m x < 65536) :
    ∀ x, mem_write m a d x < 65536 := by
  intro x
  unfold mem_write
  split_ifs
  · exact Nat.mod_lt _ (by norm_num)
  · exact hm x

theorem mem_read_lt (m : Nat → Nat) (h : Host) (addr : Nat)
    (hm : ∀ x, m x < 65536) :
    (mem_read m h addr).1 < 65536 ∧ ∀ x, (mem_read m h addr).2.1 x < 65536 := by
  unfold mem_read
  by_cases hA : addr = MR_KBSR
  · by_cases hK : (check_key h).1 = true
    · have hm1 := mem_write_lt (mem_write m MR_KBSR 32768) MR_KBDR
        (host_getchar (check_key h).2).1 (mem_write_lt m MR_KBSR 32768 hm)
      simp only [hA, hK, if_true, if_pos]
      exact ⟨hm1 _, hm1⟩
    · have hm1 := mem_write_lt m MR_KBSR 0 hm
      simp only [hA, hK, if_true, if_neg, Bool.false_eq_true, not_false_iff]
      exact ⟨hm1 _, hm1⟩
  · simp only [hA, if_neg, not_false_iff]
    exact ⟨hm _, hm⟩

/-- the bundle of flag facts claim C1 asserts about a flag value `f` and a
final destination value `v`. -/
def FlagProp (f v : Nat) : Prop :=
  (f = FL_NEG ∨ f = FL_ZRO ∨ f = FL_POS) ∧
  (f = FL_ZRO ↔ v = 0) ∧
  (f = FL_NEG ↔ v.testBit 15 = true) ∧
  (f = FL_POS ↔ (v ≠ 0 ∧ ¬ v.testBit 15 = true))

theorem testBit15_iff (v : Nat) (hv : v < 65536) :
    v.testBit 15 = true ↔ v >>> 15 ≠ 0 := by
  rw [Nat.testBit_to_div_mod, Nat.shiftRight_eq_div_pow]
  norm_num
  omega

theorem flags_ok (r : Nat → Nat) (r0 x : Nat) (h0 : r0 < 8) :
    FlagProp (update_flags (regWrite r r0 x) r0 R_COND)
             (update_flags (regWrite r r0 x) r0 r0) := by
  have h9 : r0 ≠ R_COND := by unfold R_COND; omega
  have hv : update_flags (regWrite r r0 x) r0 r0 = x % 65536 := by
    rw [update_flags_ne _ _ _ h9, regWrite_eq]
  have hlt : x % 65536 < 65536 := Nat.mod_lt _ (by norm_num)
  have hdiv : (x % 65536) >>> 15 = x % 65536 / 32768 := by
    rw [Nat.shiftRight_eq_div_pow]
  have htb : (x % 65536).testBit 15 = true ↔ x % 65536 / 32768 ≠ 0 := by
    rw [testBit15_iff _ hlt, hdiv]
  have hf : update_flags (regWrite r r0 x) r0 R_COND =
      if x % 65536 = 0 then 2
      else if x % 65536 / 32768 ≠ 0 then 4 else 1 := by
    rw [update_flags_cond, regWrite_eq, hdiv]
    simp only [FL_ZRO, FL_NEG, FL_POS]
  simp only [FlagProp, FL_ZRO, FL_NEG, FL_POS]
  rw [hv, htb, hf]
  split_ifs with hz hn <;> omega

/-- Claim C6: for every 16-bit `x` and `1 ≤ n ≤ 15`, `sign_extend`
round-trips with truncation (`sign_extend x n % 2^n = x % 2^n`), and for
`x` fitting in `n` bits the result is `x` with bit `n-1` replicated into
bits `15..n` (bits beyond 15 stay clear). -/
theorem c6_sign_extend_spec (x n : Nat) (h1 : 1 ≤ n) (h2 : n ≤ 15)
    (hx : x < 65536) :
    sign_extend x n % 2 ^ n = x % 2 ^ n ∧
    (x < 2 ^ n → ∀ i, (sign_extend x n).testBit i =
      (if i < n then x.testBit i
       else if i ≤ 15 then x.testBit (n - 1) else false)) := by
  have hbit : x.testBit (n - 1) = decide ((x >>> (n - 1)) &&& 1 ≠ 0) := by
    rw [Nat.testBit_to_div_mod, Nat.and_one_is_mod, Nat.shiftRight_eq_div_pow]
    rcases Nat.mod_two_eq_zero_or_one (x / 2 ^ (n - 1)) with h | h <;> simp [h]
  unfold sign_extend
  split_ifs with hs
  · -- sign bit set: the high mask is ORed in
    have hb : x.testBit (n - 1) = true := by
      rw [hbit, decide_eq_true_eq]; exact hs
    have h65536 : (65536 : Nat) = 2 ^ 16 := by norm_num
    have h65535 : (0xFFFF : Nat) = 2 ^ 16 - 1 := by norm_num
    constructor
    · rw [h65536, Nat.mod_mod_of_dvd _ (Nat.pow_dvd_pow 2 (by omega))]
      apply Nat.eq_of_testBit_eq
      intro i
      rw [Nat.testBit_mod_two_pow, Nat.testBit_mod_two_pow, Nat.testBit_lor,
        Nat.testBit_shiftLeft]
      rcases Nat.lt_or_ge i n with hi | hi
      · simp [hi, Nat.not_le_of_lt hi]
      · simp [Nat.not_lt_of_le hi]
    · intro hxn i
      rw [h65536, h65535, Nat.testBit_mod_two_pow, Nat.testBit_lor,
        Nat.testBit_shiftLeft, Nat.testBit_two_pow_sub_one]
      rcases Nat.lt_or_ge i n with hi | hi
      · have h16 : i < 16 := by omega
        simp [hi, h16, Nat.not_le_of_lt hi]
      · have hxi : x.testBit i = false :=
          Nat.testBit_lt_two_pow
            (lt_of_lt_of_le hxn (Nat.pow_le_pow_right (by norm_num) hi))
        rcases Nat.lt_or_ge i 16 with hi16 | hi16
        · have h15 : i ≤ 15 := by omega
          simp [Nat.not_lt_of_le hi, hi, hi16, h15, hb, hxi,
            show i - n < 16 by omega]
        · have h15 : ¬ i ≤ 15 := by omega
          simp [Nat.not_lt_of_le hi, h15, hxi, show ¬ i < 16 by omega]
  · -- sign bit clear: the value is returned unchanged
    have hb : x.testBit (n - 1) = false := by
      rw [hbit, decide_eq_false_iff_not]; exact hs
    refine ⟨rfl, fun hxn i => ?_⟩
    rcases Nat.lt_or_ge i n with hi | hi
    · simp [hi]
    · have hxi : x.testBit i = false :=
        Nat.testBit_lt_two_pow
          (lt_of_lt_of_le hxn (Nat.pow_le_pow_right (by norm_num) hi))
      simp [Nat.not_lt_of_le hi, hxi, hb]

/-- witness for C6 at `x = 0x1F`, `n = 5`: the round-trip holds and the
sign bit is replicated up to bit 15. -/
theorem c6_sign_extend_spec_witness :
    (1 ≤ 5 ∧ 5 ≤ 15 ∧ 31 < 65536 ∧ 31 < 2 ^ 5) ∧
    sign_extend 31 5 % 2 ^ 5 = 31 % 2 ^ 5 ∧
    (sign_extend 31 5).testBit 15 = true := by
  refine ⟨by decide,
    (c6_sign_extend_spec 31 5 (by decide) (by decide) (by decide)).1, ?_⟩
  have h := (c6_sign_extend_spec 31 5 (by decide) (by decide) (by decide)).2
    (by decide) 15
  rw [h]
  decide

/-- Claim C4: reading `0xFE00` with no key pending returns 0 and stores 0
at `0xFE00`; with a key pending delivering byte `b` it returns `0x8000`,
latches `b` into `0xFE02`, and a subsequent read of `0xFE02` returns `b`;
a read of any other address returns the stored word with no side effect on
memory or on the host. -/
theorem c4_mem_read_spec (m : Nat → Nat) (h : Host) (a b : Nat) :
    ((check_key h).1 = false →
      (mem_read m h MR_KBSR).1 = 0 ∧
      (mem_read m h MR_KBSR).2.1 MR_KBSR = 0) ∧
    ((check_key h).1 = true → (host_getchar (check_key h).2).1 = b →
      b < 256 →
      (mem_read m h MR_KBSR).1 = 32768 ∧
      (mem_read (mem_read m h MR_KBSR).2.1 (mem_read m h MR_KBSR).2.2
        MR_KBDR).1 = b) ∧
    (a ≠ MR_KBSR → mem_read m h a = (m a, m, h)) := by
  refine ⟨fun hk => ?_, fun hk hgc hb => ?_, fun ha => mem_read_plain m h a ha⟩
  · unfold mem_read
    simp [hk, mem_write]
  · have hne : MR_KBDR ≠ MR_KBSR := by unfold MR_KBDR MR_KBSR; omega
    have h1 : (mem_read m h MR_KBSR).2.1 MR_KBDR = b % 65536 := by
      unfold mem_read
      simp [hk, hgc, mem_write, hne]
    have h2 : (mem_read m h MR_KBSR).1 = 32768 := by
      unfold mem_read
      simp [hk, mem_write, hne, hne.symm]
    refine ⟨h2, ?_⟩
    rw [mem_read_plain _ _ _ hne, h1, Nat.mod_eq_of_lt (by omega)]

/-- witness for C4: no-key poll returns 0, a pending key delivering 65
returns `0x8000` and latches 65, and a plain address reads through. -/
theorem c4_mem_read_spec_witness :
    ((check_key hostNoKey).1 = false ∧ (check_key (hostKey 65)).1 = true ∧
      (host_getchar (check_key (hostKey 65)).2).1 = 65 ∧ 65 < 256 ∧
      (12288 : Nat) ≠ MR_KBSR) ∧
    (mem_read mem0 hostNoKey MR_KBSR).1 = 0 ∧
    (mem_read mem0 (hostKey 65) MR_KBSR).1 = 32768 ∧
    (mem_read (mem_read mem0 (hostKey 65) MR_KBSR).2.1
      (mem_read mem0 (hostKey 65) MR_KBSR).2.2 MR_KBDR).1 = 65 ∧
    mem_read mem0 host0 12288 = (mem0 12288, mem0, host0) := by
  refine ⟨by decide, ?_, ?_, ?_, ?_⟩
  · exact ((c4_mem_read_spec mem0 hostNoKey 12288 65).1 (by decide)).1
  · exact (((c4_mem_read_spec mem0 (hostKey 65) 12288 65).2.1 (by decide)
      (by decide) (by decide))).1
  · exact (((c4_mem_read_spec mem0 (hostKey 65) 12288 65).2.1 (by decide)
      (by decide) (by decide))).2
  · exact (c4_mem_read_spec mem0 host0 12288 65).2.2 (by decide)

/-- the machine after the fetch of `step`: memory possibly mutated by the
device read, `PC` incremented. -/
def postFetch (h : Host) (s : Machine) : Machine :=
  { s with memory := (mem_read s.memory h (s.reg R_PC)).2.1,
           reg := regWrite s.reg R_PC (s.reg R_PC + 1) }

/-- the host oracle after the fetch of `step`. -/
def postHost (h : Host) (s : Machine) : Host :=
  (mem_read s.memory h (s.reg R_PC)).2.2

theorem step_eq (h : Host) (s : Machine) :
    step h s = execute (fetched h s) (postHost h s) (postFetch h s) := rfl

theorem step_op_add (h : Host) (s : Machine)
    (hop : fetched h s >>> 12 = OP_ADD) :
    step h s = some (exec_add (fetched h s) (postFetch h s), postHost h s) := by
  rw [step_eq]; simp [execute, hop, OP_ADD]

theorem step_op_and (h : Host) (s : Machine)
    (hop : fetched h s >>> 12 = OP_AND) :
    step h s = some (exec_and (fetched h s) (postFetch h s), postHost h s) := by
  rw [step_eq]
  simp [execute, hop, OP_ADD, OP_AND]

theorem step_op_not (h : Host) (s : Machine)
    (hop : fetched h s >>> 12 = OP_NOT) :
    step h s = some (exec_not (fetched h s) (postFetch h s), postHost h s) := by
  rw [step_eq]
  simp [execute, hop, OP_ADD, OP_AND, OP_NOT]

theorem step_op_br (h : Host) (s : Machine)
    (hop : fetched h s >>> 12 = OP_BR) :
    step h s = some (exec_br (fetched h s) (postFetch h s), postHost h s) := by
  rw [step_eq]
  simp [execute, hop, OP_ADD, OP_AND, OP_NOT, OP_BR]

theorem step_op_jmp (h : Host) (s : Machine)
    (hop : fetched h s >>> 12 = OP_JMP) :
    step h s = some (exec_jmp (fetched h s) (postFetch h s), postHost h s) := by
  rw [step_eq]
  simp [execute, hop, OP_ADD, OP_AND, OP_NOT, OP_BR, OP_JMP]

theorem step_op_jsr (h : Host) (s : Machine)
    (hop : fetched h s >>> 12 = OP_JSR) :
    step h s = some (exec_jsr (fetched h s) (postFetch h s), postHost h s) := by
  rw [step_eq]
  simp [execute, hop, OP_ADD, OP_AND, OP_NOT, OP_BR, OP_JMP, OP_JSR]

theorem step_op_ld (h : Host) (s : Machine)
    (hop : fetched h s >>> 12 = OP_LD) :
    step h s = some (exec_ld (fetched h s) (postHost h s) (postFetch h s)) := by
  rw [step_eq]
  simp [execute, hop, OP_ADD, OP_AND, OP_NOT, OP_BR, OP_JMP, OP_JSR, OP_LD]

theorem step_op_ldi (h : Host) (s : Machine)
    (hop : fetched h s >>> 12 = OP_LDI) :
    step h s = some (exec_ldi (fetched h s) (postHost h s) (postFetch h s)) := by
  rw [step_eq]
  simp [execute, hop, OP_ADD, OP_AND, OP_NOT, OP_BR, OP_JMP, OP_JSR, OP_LD,
    OP_LDI]

theorem step_op_ldr (h : Host) (s : Machine)
    (hop : fetched h s >>> 12 = OP_LDR) :
    step h s = some (exec_ldr (fetched h s) (postHost h s) (postFetch h s)) := by
  rw [step_eq]
  simp [execute, hop, OP_ADD, OP_AND, OP_NOT, OP_BR, OP_JMP, OP_JSR, OP_LD,
    OP_LDI, OP_LDR]

theorem step_op_lea (h : Host) (s : Machine)
    (hop : fetched h s >>> 12 = OP_LEA) :
    step h s = some (exec_lea (fetched h s) (postFetch h s), postHost h s) := by
  rw [step_eq]
  simp [execute, hop, OP_ADD, OP_AND, OP_NOT, OP_BR, OP_JMP, OP_JSR, OP_LD,
    OP_LDI, OP_LDR, OP_LEA]

theorem step_op_st (h : Host) (s : Machine)
    (hop : fetched h s >>> 12 = OP_ST) :
    step h s = some (exec_st (fetched h s) (postFetch h s), postHost h s) := by
  rw [step_eq]
  simp [execute, hop, OP_ADD, OP_AND, OP_NOT, OP_BR, OP_JMP, OP_JSR, OP_LD,
    OP_LDI, OP_LDR, OP_LEA, OP_ST]

theorem step_op_sti (h : Host) (s : Machine)
    (hop : fetched h s >>> 12 = OP_STI) :
    step h s = some (exec_sti (fetched h s) (postHost h s) (postFetch h s)) := by
  rw [step_eq]
  simp [execute, hop, OP_ADD, OP_AND, OP_NOT, OP_BR, OP_JMP, OP_JSR, OP_LD,
    OP_LDI, OP_LDR, OP_LEA, OP_ST, OP_STI]

theorem step_op_str (h : Host) (s : Machine)
    (hop : fetched h s >>> 12 = OP_STR) :
    step h s = some (exec_str (fetched h s) (postFetch h s), postHost h s) := by
  rw [step_eq]
  simp [execute, hop, OP_ADD, OP_AND, OP_NOT, OP_BR, OP_JMP, OP_JSR, OP_LD,
    OP_LDI, OP_LDR, OP_LEA, OP_ST, OP_STI, OP_STR]

theorem step_op_trap (h : Host) (s : Machine)
    (hop : fetched h s >>> 12 = OP_TRAP) :
    step h s = some (exec_trap (fetched h s) (postHost h s) (postFetch h s)) := by
  rw [step_eq]
  simp [execute, hop, OP_ADD, OP_AND, OP_NOT, OP_BR, OP_JMP, OP_JSR, OP_LD,
    OP_LDI, OP_LDR, OP_LEA, OP_ST, OP_STI, OP_STR, OP_TRAP]

theorem step_op_abort (h : Host) (s : Machine)
    (hop : fetched h s >>> 12 = OP_RTI ∨ fetched h s >>> 12 = OP_RES) :
    step h s = none := by
  rw [step_eq]
  rcases hop with hop | hop <;>
    simp [execute, hop, OP_ADD, OP_AND, OP_NOT, OP_BR, OP_JMP, OP_JSR, OP_LD,
      OP_LDI, OP_LDR, OP_LEA, OP_ST, OP_STI, OP_STR, OP_TRAP, OP_RTI, OP_RES]

/-- Claim C1: after any instruction that writes a general-purpose register
(`ADD`, `AND`, `NOT`, `LD`, `LDI`, `LDR`, `LEA`, and traps `GETC`/`IN` via
`R0`), `COND` holds exactly one of `FL_NEG`, `FL_ZRO`, `FL_POS`, and the
flag agrees with the signed reading of the final destination value:
`Z` iff it is zero, `N` iff its bit 15 is set, `P` otherwise. -/
theorem c1_cond_flags (h : Host) (s : Machine)
    (hop : fetched h s >>> 12 = OP_ADD ∨ fetched h s >>> 12 = OP_AND ∨
      fetched h s >>> 12 = OP_NOT ∨ fetched h s >>> 12 = OP_LD ∨
      fetched h s >>> 12 = OP_LDI ∨ fetched h s >>> 12 = OP_LDR ∨
      fetched h s >>> 12 = OP_LEA ∨
      (fetched h s >>> 12 = OP_TRAP ∧
        (fetched h s &&& 0xFF = TRAP_GETC ∨ fetched h s &&& 0xFF = TRAP_IN))) :
    ∃ f v, stepReg h s R_COND = some f ∧
      stepReg h s
        (if fetched h s >>> 12 = OP_TRAP then R_R0
         else (fetched h s >>> 9) &&& 0x7) = some v ∧
      FlagProp f v := by
  have hr0 : (fetched h s >>> 9) &&& 0x7 < 8 :=
    Nat.lt_succ_of_le Nat.and_le_right
  have hR0 : R_R0 < 8 := by unfold R_R0; omega
  rcases hop with h1 | h1 | h1 | h1 | h1 | h1 | h1 | ⟨h1, htr⟩
  · have hnt : ¬ fetched h s >>> 12 = OP_TRAP := by rw [h1]; decide
    rw [if_neg hnt]
    unfold stepReg
    rw [step_op_add h s h1]
    refine ⟨_, _, rfl, rfl, ?_⟩
    simp only [exec_add]
    split_ifs <;> exact flags_ok _ _ _ hr0
  · have hnt : ¬ fetched h s >>> 12 = OP_TRAP := by rw [h1]; decide
    rw [if_neg hnt]
    unfold stepReg
    rw [step_op_and h s h1]
    refine ⟨_, _, rfl, rfl, ?_⟩
    simp only [exec_and]
    split_ifs <;> exact flags_ok _ _ _ hr0
  · have hnt : ¬ fetched h s >>> 12 = OP_TRAP := by rw [h1]; decide
    rw [if_neg hnt]
    unfold stepReg
    rw [step_op_not h s h1]
    refine ⟨_, _, rfl, rfl, ?_⟩
    simp only [exec_not]
    exact flags_ok _ _ _ hr0
  · have hnt : ¬ fetched h s >>> 12 = OP_TRAP := by rw [h1]; decide
    rw [if_neg hnt]
    unfold stepReg
    rw [step_op_ld h s h1]
    refine ⟨_, _, rfl, rfl, ?_⟩
    simp only [exec_ld]
    exact flags_ok _ _ _ hr0
  · have hnt : ¬ fetched h s >>> 12 = OP_TRAP := by rw [h1]; decide
    rw [if_neg hnt]
    unfold stepReg
    rw [step_op_ldi h s h1]
    refine ⟨_, _, rfl, rfl, ?_⟩
    simp only [exec_ldi]
    exact flags_ok _ _ _ hr0
  · have hnt : ¬ fetched h s >>> 12 = OP_TRAP := by rw [h1]; decide
    rw [if_neg hnt]
    unfold stepReg
    rw [step_op_ldr h s h1]
    refine ⟨_, _, rfl, rfl, ?_⟩
    simp only [exec_ldr]
    exact flags_ok _ _ _ hr0
  · have hnt : ¬ fetched h s >>> 12 = OP_TRAP := by rw [h1]; decide
    rw [if_neg hnt]
    unfold stepReg
    rw [step_op_lea h s h1]
    refine ⟨_, _, rfl, rfl, ?_⟩
    simp only [exec_lea]
    exact flags_ok _ _ _ hr0
  · rw [if_pos h1]
    unfold stepReg
    rw [step_op_trap h s h1]
    refine ⟨_, _, rfl, rfl, ?_⟩
    rcases htr with ht | ht <;>
      simp only [exec_trap, ht, TRAP_GETC, TRAP_OUT, TRAP_PUTS, TRAP_IN] <;>
      norm_num <;>
      exact flags_ok _ _ _ hR0

/-- witness for C1: `ADD R1, R1, #5` (`0x1265`) at reset state leaves
`R1 = 5` and `COND = FL_POS`. -/
theorem c1_cond_flags_witness :
    fetched host0 (baseMachine 4709) >>> 12 = OP_ADD ∧
    stepReg host0 (baseMachine 4709) R_COND = some FL_POS ∧
    stepReg host0 (baseMachine 4709) 1 = some 5 ∧ FlagProp FL_POS 5 := by
  obtain ⟨f, v, hf, hv, hp⟩ :=
    c1_cond_flags host0 (baseMachine 4709) (Or.inl (by decide))
  exact ⟨by decide, by decide, by decide, by unfold FlagProp; decide⟩

theorem postFetch_pc (h : Host) (s : Machine) :
    (postFetch h s).reg R_PC = (s.reg R_PC + 1) % 65536 := by
  unfold postFetch
  show regWrite s.reg R_PC (s.reg R_PC + 1) R_PC = (s.reg R_PC + 1) % 65536
  exact regWrite_eq _ _ _

theorem postFetch_reg_ne (h : Host) (s : Machine) (i : Nat) (hi : i ≠ R_PC) :
    (postFetch h s).reg i = s.reg i := by
  unfold postFetch
  show regWrite s.reg R_PC (s.reg R_PC + 1) i = s.reg i
  exact regWrite_ne _ _ _ _ hi

theorem pc_ne_cond : R_COND ≠ R_PC := by unfold R_COND R_PC; omega

/-- Claim C5: a `BR` instruction adds the sign-extended `PCoffset9` to the
incremented `PC` exactly when `nzp AND COND` is nonzero, leaves `COND`
unchanged in either case, never branches when `nzp = 0`, and always
branches when `nzp = 7` and `COND` holds one of the three flags. -/
theorem c5_br_spec (h : Host) (s : Machine)
    (hop : fetched h s >>> 12 = OP_BR) :
    (((fetched h s >>> 9) &&& 0x7) &&& s.reg R_COND ≠ 0 →
      stepReg h s R_PC =
        some ((s.reg R_PC + 1 + sign_extend (fetched h s &&& 0x1FF) 9)
          % 65536)) ∧
    (((fetched h s >>> 9) &&& 0x7) &&& s.reg R_COND = 0 →
      stepReg h s R_PC = some ((s.reg R_PC + 1) % 65536)) ∧
    stepReg h s R_COND = some (s.reg R_COND) ∧
    ((fetched h s >>> 9) &&& 0x7 = 0 →
      stepReg h s R_PC = some ((s.reg R_PC + 1) % 65536)) ∧
    ((fetched h s >>> 9) &&& 0x7 = 7 →
      (s.reg R_COND = FL_NEG ∨ s.reg R_COND = FL_ZRO ∨
        s.reg R_COND = FL_POS) →
      stepReg h s R_PC =
        some ((s.reg R_PC + 1 + sign_extend (fetched h s &&& 0x1FF) 9)
          % 65536)) := by
  have hs := step_op_br h s hop
  have hcond : (postFetch h s).reg R_COND = s.reg R_COND :=
    postFetch_reg_ne h s R_COND pc_ne_cond
  have htaken : ((fetched h s >>> 9) &&& 0x7) &&& s.reg R_COND ≠ 0 →
      stepReg h s R_PC =
        some ((s.reg R_PC + 1 + sign_extend (fetched h s &&& 0x1FF) 9)
          % 65536) := by
    intro hbr
    unfold stepReg
    rw [hs]
    simp only [Option.map_some']
    unfold exec_br
    rw [hcond, if_pos hbr]
    simp only [regWrite_eq, postFetch_pc]
    rw [Nat.mod_add_mod]
  have hnot : ((fetched h s >>> 9) &&& 0x7) &&& s.reg R_COND = 0 →
      stepReg h s R_PC = some ((s.reg R_PC + 1) % 65536) := by
    intro hbr
    unfold stepReg
    rw [hs]
    simp only [Option.map_some']
    unfold exec_br
    rw [hcond, if_neg (by simp [hbr])]
    exact congrArg some (postFetch_pc h s)
  refine ⟨htaken, hnot, ?_, ?_, ?_⟩
  · unfold stepReg
    rw [hs]
    simp only [Option.map_some']
    unfold exec_br
    rw [hcond]
    by_cases hbr : ((fetched h s >>> 9) &&& 0x7) &&& s.reg R_COND ≠ 0
    · rw [if_pos hbr]
      show some (regWrite (postFetch h s).reg R_PC
        ((postFetch h s).reg R_PC + sign_extend (fetched h s &&& 0x1FF) 9)
        R_COND) = some (s.reg R_COND)
      rw [regWrite_ne _ _ _ _ pc_ne_cond, hcond]
    · rw [if_neg hbr]
      show some ((postFetch h s).reg R_COND) = some (s.reg R_COND)
      rw [hcond]
  · intro hz
    exact hnot (by rw [hz]; simp [Nat.zero_and])
  · intro h7 hflags
    refine htaken ?_
    rw [h7]
    rcases hflags with hc | hc | hc <;> rw [hc] <;> decide

/-- Claim C10: register-form `JSR` (bit 11 = 0) with `BaseR = R7` jumps to
the incremented `PC` (the return address), not to the previous contents of
`R7`, because `R7` is overwritten with the incremented `PC` before the
base register is read. -/
theorem c10_jsrr_r7 (h : Host) (s : Machine)
    (hop : fetched h s >>> 12 = OP_JSR)
    (hb : (fetched h s >>> 11) &&& 0x1 = 0)
    (hr : (fetched h s >>> 6) &&& 0x7 = 7) :
    stepReg h s R_PC = some ((s.reg R_PC + 1) % 65536) ∧
    stepReg h s R_R7 = some ((s.reg R_PC + 1) % 65536) := by
  have hs := step_op_jsr h s hop
  constructor <;>
    · unfold stepReg
      rw [hs]
      simp [exec_jsr, hb, hr, regWrite, postFetch, R_PC, R_R7]

/-- witness for C5: `BR` on `Z` with offset `-1` (`0x05FF`) at reset state
(where `COND = Z`) branches back to the instruction's own address. -/
theorem c5_br_spec_witness :
    (fetched host0 (baseMachine 1535) >>> 12 = OP_BR ∧
      ((fetched host0 (baseMachine 1535) >>> 9) &&& 0x7) &&&
        (baseMachine 1535).reg R_COND ≠ 0) ∧
    stepReg host0 (baseMachine 1535) R_PC = some 12288 := by
  refine ⟨⟨by decide, by decide⟩, ?_⟩
  have hp := (c5_br_spec host0 (baseMachine 1535) (by decide)).1 (by decide)
  rw [hp]
  decide

/-- witness for C10: `JSRR R7` (`0x41C0`) with `R7 = 0x1234` and
`PC = 0x3000` transfers to `0x3001`, not to `0x1234`. -/
theorem c10_jsrr_r7_witness :
    (fetched host0 jsrrMachine >>> 12 = OP_JSR ∧
      (fetched host0 jsrrMachine >>> 11) &&& 0x1 = 0 ∧
      (fetched host0 jsrrMachine >>> 6) &&& 0x7 = 7) ∧
    stepReg host0 jsrrMachine R_PC = some 12289 ∧
    stepReg host0 jsrrMachine R_R7 = some 12289 := by
  refine ⟨⟨by decide, by decide, by decide⟩, ?_, ?_⟩
  · have hp := (c10_jsrr_r7 host0 jsrrMachine (by decide) (by decide)
      (by decide)).1
    rw [hp]
    decide
  · have hp := (c10_jsrr_r7 host0 jsrrMachine (by decide) (by decide)
      (by decide)).2
    rw [hp]
    decide

theorem step_isSome_of_op (h : Host) (s : Machine)
    (hlt : fetched h s >>> 12 < 16)
    (h8 : fetched h s >>> 12 ≠ OP_RTI)
    (h13 : fetched h s >>> 12 ≠ OP_RES) :
    (step h s).isSome = true := by
  have hcases : fetched h s >>> 12 = 0 ∨ fetched h s >>> 12 = 1 ∨
      fetched h s >>> 12 = 2 ∨ fetched h s >>> 12 = 3 ∨
      fetched h s >>> 12 = 4 ∨ fetched h s >>> 12 = 5 ∨
      fetched h s >>> 12 = 6 ∨ fetched h s >>> 12 = 7 ∨
      fetched h s >>> 12 = 8 ∨ fetched h s >>> 12 = 9 ∨
      fetched h s >>> 12 = 10 ∨ fetched h s >>> 12 = 11 ∨
      fetched h s >>> 12 = 12 ∨ fetched h s >>> 12 = 13 ∨
      fetched h s >>> 12 = 14 ∨ fetched h s >>> 12 = 15 := by omega
  rcases hcases with hc|hc|hc|hc|hc|hc|hc|hc|hc|hc|hc|hc|hc|hc|hc|hc
  · rw [step_op_br h s hc]; rfl
  · rw [step_op_add h s hc]; rfl
  · rw [step_op_ld h s hc]; rfl
  · rw [step_op_st h s hc]; rfl
  · rw [step_op_jsr h s hc]; rfl
  · rw [step_op_and h s hc]; rfl
  · rw [step_op_ldr h s hc]; rfl
  · rw [step_op_str h s hc]; rfl
  · exact absurd hc h8
  · rw [step_op_not h s hc]; rfl
  · rw [step_op_ldi h s hc]; rfl
  · rw [step_op_sti h s hc]; rfl
  · rw [step_op_jmp h s hc]; rfl
  · exact absurd hc h13
  · rw [step_op_lea h s hc]; rfl
  · rw [step_op_trap h s hc]; rfl

/-- Claim C7: with well-formed (16-bit) memory, a step aborts (models the
fatal `abort()` that terminates the process) exactly when the fetched
word's top 4 bits are `1000` (`RTI`) or `1101` (reserved). -/
theorem c7_reserved_abort (h : Host) (s : Machine)
    (hm : ∀ a, s.memory a < 65536) :
    (step h s).isNone = true ↔
      (fetched h s >>> 12 = OP_RTI ∨ fetched h s >>> 12 = OP_RES) := by
  have hf : fetched h s < 65536 := (mem_read_lt s.memory h (s.reg R_PC) hm).1
  have hlt : fetched h s >>> 12 < 16 := by
    rw [Nat.shiftRight_eq_div_pow]
    omega
  constructor
  · intro hnone
    by_contra hcon
    push_neg at hcon
    have hsome := step_isSome_of_op h s hlt hcon.1 hcon.2
    rw [Option.isNone_iff_eq_none] at hnone
    rw [hnone] at hsome
    exact absurd hsome (by decide)
  · intro hop
    rw [step_op_abort h s hop]
    rfl

/-- witness for C7: the word `0x8000` (`RTI`) at `PC` aborts the step. -/
theorem c7_reserved_abort_witness :
    (step host0 (baseMachine 32768)).isNone = true := by
  have hm : ∀ a, (baseMachine 32768).memory a < 65536 := by
    intro a
    show (if a = 12288 then 32768 else 0) < 65536
    split_ifs <;> decide
  exact (c7_reserved_abort host0 (baseMachine 32768) hm).2 (Or.inl (by decide))

theorem fetched_kbsr (h : Host) (s : Machine) (hA : s.reg R_PC = MR_KBSR) :
    fetched h s = 32768 ∨ fetched h s = 0 := by
  unfold fetched mem_read
  by_cases hk : (check_key h).1 = true <;>
    simp [hA, hk, mem_write, MR_KBSR, MR_KBDR]

/-- Claim C9: a `TRAP` whose low 8 bits are none of the six standard codes
still writes the incremented `PC` into `R7`, changes no other
general-purpose register, no memory word, neither `COND` nor the running
flag, and execution continues at the next instruction. -/
theorem c9_unknown_trap (h : Host) (s : Machine)
    (hop : fetched h s >>> 12 = OP_TRAP)
    (h20 : fetched h s &&& 0xFF ≠ TRAP_GETC)
    (h21 : fetched h s &&& 0xFF ≠ TRAP_OUT)
    (h22 : fetched h s &&& 0xFF ≠ TRAP_PUTS)
    (h23 : fetched h s &&& 0xFF ≠ TRAP_IN)
    (h24 : fetched h s &&& 0xFF ≠ TRAP_PUTSP)
    (h25 : fetched h s &&& 0xFF ≠ TRAP_HALT) :
    stepReg h s R_R7 = some ((s.reg R_PC + 1) % 65536) ∧
    (∀ r, r < 8 → r ≠ R_R7 → stepReg h s r = some (s.reg r)) ∧
    stepReg h s R_COND = some (s.reg R_COND) ∧
    (∀ a, stepMem h s a = some (s.memory a)) ∧
    stepRunning h s = some s.running ∧
    stepReg h s R_PC = some ((s.reg R_PC + 1) % 65536) := by
  have hplain : s.reg R_PC ≠ MR_KBSR := by
    intro hA
    rcases fetched_kbsr h s hA with hf | hf <;> rw [hf] at hop <;>
      exact absurd hop (by decide)
  have hmr : mem_read s.memory h (s.reg R_PC) =
      (s.memory (s.reg R_PC), s.memory, h) := mem_read_plain _ _ _ hplain
  have hs := step_op_trap h s hop
  refine ⟨?_, ?_, ?_, ?_, ?_, ?_⟩
  · unfold stepReg
    rw [hs]
    simp only [Option.map_some', exec_trap, h20, h21, h22, h23, h24, h25,
      if_neg, if_false]
    simp [regWrite, postFetch, R_R7, R_PC, Nat.mod_mod_of_dvd]
  · intro r hr8 hr7
    have h7 : r ≠ 7 := by simpa [R_R7] using hr7
    have h8 : r ≠ 8 := by omega
    unfold stepReg
    rw [hs]
    simp only [Option.map_some', exec_trap, h20, h21, h22, h23, h24, h25,
      if_neg, if_false]
    simp [regWrite, postFetch, R_R7, R_PC, h7, h8]
  · unfold stepReg
    rw [hs]
    simp only [Option.map_some', exec_trap, h20, h21, h22, h23, h24, h25,
      if_neg, if_false]
    simp [regWrite, postFetch, R_R7, R_PC, R_COND]
  · intro a
    unfold stepMem
    rw [hs]
    simp only [Option.map_some', exec_trap, h20, h21, h22, h23, h24, h25,
      if_neg, if_false]
    simp [postFetch, hmr]
  · unfold stepRunning
    rw [hs]
    simp only [Option.map_some', exec_trap, h20, h21, h22, h23, h24, h25,
      if_neg, if_false]
    simp [postFetch]
  · unfold stepReg
    rw [hs]
    simp only [Option.map_some', exec_trap, h20, h21, h22, h23, h24, h25,
      if_neg, if_false]
    simp [regWrite, postFetch, R_R7, R_PC, Nat.mod_mod_of_dvd]

/-- witness for C9: `TRAP 0x30` (`0xF030`) at reset state only clobbers
`R7` with the return address `0x3001` and proceeds. -/
theorem c9_unknown_trap_witness :
    (fetched host0 (baseMachine 61488) >>> 12 = OP_TRAP ∧
      fetched host0 (baseMachine 61488) &&& 0xFF = 0x30) ∧
    stepReg host0 (baseMachine 61488) R_R7 = some 12289 ∧
    stepReg host0 (baseMachine 61488) 0 = some 0 ∧
    stepMem host0 (baseMachine 61488) 12288 = some 61488 ∧
    stepRunning host0 (baseMachine 61488) = some true := by
  have h := c9_unknown_trap host0 (baseMachine 61488) (by decide) (by decide)
    (by decide) (by decide) (by decide) (by decide) (by decide)
  exact ⟨⟨by decide, by decide⟩, by decide, by decide, by decide, by decide⟩

theorem postFetch_mem (h : Host) (s : Machine) (a : Nat)
    (h1 : a ≠ MR_KBSR) (h2 : a ≠ MR_KBDR) :
    (postFetch h s).memory a = s.memory a := by
  unfold postFetch
  show (mem_read s.memory h (s.reg R_PC)).2.1 a = s.memory a
  exact mem_read_frame s.memory h (s.reg R_PC) a h1 h2

theorem execute_big (instr : Nat) (h1 : Host) (s1 : Machine)
    (hop : 16 ≤ instr >>> 12) : execute instr h1 s1 = none := by
  have e1 : ¬ instr >>> 12 = OP_ADD := by unfold OP_ADD; omega
  have e2 : ¬ instr >>> 12 = OP_AND := by unfold OP_AND; omega
  have e3 : ¬ instr >>> 12 = OP_NOT := by unfold OP_NOT; omega
  have e4 : ¬ instr >>> 12 = OP_BR := by unfold OP_BR; omega
  have e5 : ¬ instr >>> 12 = OP_JMP := by unfold OP_JMP; omega
  have e6 : ¬ instr >>> 12 = OP_JSR := by unfold OP_JSR; omega
  have e7 : ¬ instr >>> 12 = OP_LD := by unfold OP_LD; omega
  have e8 : ¬ instr >>> 12 = OP_LDI := by unfold OP_LDI; omega
  have e9 : ¬ instr >>> 12 = OP_LDR := by unfold OP_LDR; omega
  have e10 : ¬ instr >>> 12 = OP_LEA := by unfold OP_LEA; omega
  have e11 : ¬ instr >>> 12 = OP_ST := by unfold OP_ST; omega
  have e12 : ¬ instr >>> 12 = OP_STI := by unfold OP_STI; omega
  have e13 : ¬ instr >>> 12 = OP_STR := by unfold OP_STR; omega
  have e14 : ¬ instr >>> 12 = OP_TRAP := by unfold OP_TRAP; omega
  unfold execute
  show (if instr >>> 12 = OP_ADD then some (exec_add instr s1, h1) else _)
    = none
  rw [if_neg e1, if_neg e2, if_neg e3, if_neg e4, if_neg e5, if_neg e6,
    if_neg e7, if_neg e8, if_neg e9, if_neg e10, if_neg e11, if_neg e12,
    if_neg e13, if_neg e14]

theorem step_op_big (h : Host) (s : Machine)
    (hop : 16 ≤ fetched h s >>> 12) :
    step h s = none := by
  rw [step_eq]
  exact execute_big _ _ _ hop

/-- Claim C8: a non-aborting instruction leaves every non-device memory
word unchanged unless it is `ST`, `STI` or `STR` and that word is the
store's effective target address. -/
theorem c8_memory_frame (h : Host) (s : Machine) (a : Nat)
    (hsome : (step h s).isSome = true)
    (ha1 : a ≠ MR_KBSR) (ha2 : a ≠ MR_KBDR)
    (hst : ¬(fetched h s >>> 12 = OP_ST ∧
      a = ((s.reg R_PC + 1) % 65536 +
        sign_extend (fetched h s &&& 0x1FF) 9) % 65536))
    (hsti : ¬(fetched h s >>> 12 = OP_STI ∧
      a = (mem_read (postFetch h s).memory (postHost h s)
        (((s.reg R_PC + 1) % 65536 +
          sign_extend (fetched h s &&& 0x1FF) 9) % 65536)).1 % 65536))
    (hstr : ¬(fetched h s >>> 12 = OP_STR ∧
      a = (s.reg ((fetched h s >>> 6) &&& 0x7) +
        sign_extend (fetched h s &&& 0x3F) 6) % 65536)) :
    stepMem h s a = some (s.memory a) := by
  have hpm := postFetch_mem h s a ha1 ha2
  have hml : ∀ (m' : Nat → Nat) (h' : Host) (ad : Nat),
      (mem_read m' h' ad).2.1 a = m' a :=
    fun m' h' ad => mem_read_frame m' h' ad a ha1 ha2
  have hcases : fetched h s >>> 12 = 0 ∨ fetched h s >>> 12 = 1 ∨
      fetched h s >>> 12 = 2 ∨ fetched h s >>> 12 = 3 ∨
      fetched h s >>> 12 = 4 ∨ fetched h s >>> 12 = 5 ∨
      fetched h s >>> 12 = 6 ∨ fetched h s >>> 12 = 7 ∨
      fetched h s >>> 12 = 8 ∨ fetched h s >>> 12 = 9 ∨
      fetched h s >>> 12 = 10 ∨ fetched h s >>> 12 = 11 ∨
      fetched h s >>> 12 = 12 ∨ fetched h s >>> 12 = 13 ∨
      fetched h s >>> 12 = 14 ∨ fetched h s >>> 12 = 15 ∨
      16 ≤ fetched h s >>> 12 := by omega
  rcases hcases with hc|hc|hc|hc|hc|hc|hc|hc|hc|hc|hc|hc|hc|hc|hc|hc|hc
  · -- BR
    unfold stepMem
    rw [step_op_br h s hc]
    simp only [Option.map_some', exec_br]
    split_ifs <;> simp [hpm]
  · -- ADD
    unfold stepMem
    rw [step_op_add h s hc]
    simp only [Option.map_some', exec_add]
    simp [hpm]
  · -- LD
    unfold stepMem
    rw [step_op_ld h s hc]
    simp only [Option.map_some', exec_ld]
    simp [hml, hpm]
  · -- ST
    unfold stepMem
    rw [step_op_st h s hc]
    simp only [Option.map_some', exec_st]
    have hat : a ≠ (s.reg R_PC + 1 +
        sign_extend (fetched h s &&& 0x1FF) 9) % 65536 := by
      intro he
      refine hst ⟨hc, ?_⟩
      rw [Nat.mod_add_mod]
      exact he
    rw [postFetch_pc]
    simp [mem_write, hat, hpm]
  · -- JSR
    unfold stepMem
    rw [step_op_jsr h s hc]
    simp only [Option.map_some', exec_jsr]
    split_ifs <;> simp [hpm]
  · -- AND
    unfold stepMem
    rw [step_op_and h s hc]
    simp only [Option.map_some', exec_and]
    simp [hpm]
  · -- LDR
    unfold stepMem
    rw [step_op_ldr h s hc]
    simp only [Option.map_some', exec_ldr]
    simp [hml, hpm]
  · -- STR
    unfold stepMem
    rw [step_op_str h s hc]
    simp only [Option.map_some', exec_str]
    have hr2 : (postFetch h s).reg ((fetched h s >>> 6) &&& 0x7) =
        s.reg ((fetched h s >>> 6) &&& 0x7) := by
      refine postFetch_reg_ne h s _ ?_
      have hle : (fetched h s >>> 6) &&& 0x7 ≤ 7 := Nat.and_le_right
      unfold R_PC
      omega
    have hat : a ≠ (s.reg ((fetched h s >>> 6) &&& 0x7) +
        sign_extend (fetched h s &&& 0x3F) 6) % 65536 :=
      fun he => hstr ⟨hc, he⟩
    rw [hr2]
    simp [mem_write, hat, hpm]
  · -- RTI aborts
    rw [Option.isSome_iff_exists] at hsome
    obtain ⟨p, hp⟩ := hsome
    rw [step_op_abort h s (Or.inl hc)] at hp
    exact absurd hp (by simp)
  · -- NOT
    unfold stepMem
    rw [step_op_not h s hc]
    simp only [Option.map_some', exec_not]
    simp [hpm]
  · -- LDI
    unfold stepMem
    rw [step_op_ldi h s hc]
    simp only [Option.map_some', exec_ldi]
    simp [hml, hpm]
  · -- STI
    unfold stepMem
    rw [step_op_sti h s hc]
    simp only [Option.map_some', exec_sti]
    rw [postFetch_pc]
    have hat : a ≠ (mem_read (postFetch h s).memory (postHost h s)
        ((s.reg R_PC + 1 +
          sign_extend (fetched h s &&& 0x1FF) 9) % 65536)).1 % 65536 := by
      intro he
      refine hsti ⟨hc, ?_⟩
      rw [Nat.mod_add_mod]
      exact he
    simp [mem_write, hat, hml, hpm]
  · -- JMP
    unfold stepMem
    rw [step_op_jmp h s hc]
    simp only [Option.map_some', exec_jmp]
    simp [hpm]
  · -- RES aborts
    rw [Option.isSome_iff_exists] at hsome
    obtain ⟨p, hp⟩ := hsome
    rw [step_op_abort h s (Or.inr hc)] at hp
    exact absurd hp (by simp)
  · -- LEA
    unfold stepMem
    rw [step_op_lea h s hc]
    simp only [Option.map_some', exec_lea]
    simp [hpm]
  · -- TRAP
    unfold stepMem
    rw [step_op_trap h s hc]
    simp only [Option.map_some', exec_trap]
    split_ifs <;> simp [hpm]
  · -- impossible opcode (instruction words are 16-bit in C)
    rw [Option.isSome_iff_exists] at hsome
    obtain ⟨p, hp⟩ := hsome
    rw [step_op_big h s hc] at hp
    exact absurd hp (by simp)

/-- witness for C8: `ADD R1, R1, #5` leaves the word at `0x4000`
untouched. -/
theorem c8_memory_frame_witness :
    ((step host0 (baseMachine 4709)).isSome = true ∧
      (16384 : Nat) ≠ MR_KBSR ∧ (16384 : Nat) ≠ MR_KBDR) ∧
    stepMem host0 (baseMachine 4709) 16384 = some 0 := by
  have h := c8_memory_frame host0 (baseMachine 4709) 16384 (by decide)
    (by decide) (by decide) (by decide) (by decide) (by decide)
  refine ⟨⟨by decide, by decide, by decide⟩, ?_⟩
  rw [h]
  decide

theorem pc_ne_r7 : R_PC ≠ R_R7 := by unfold R_PC R_R7; omega

theorem pc_ne_r0 : R_PC ≠ R_R0 := by unfold R_PC R_R0; omega

theorem pc_ne_cond2 : R_PC ≠ R_COND := by unfold R_PC R_COND; omega

theorem pc_after_flags (r : Nat → Nat) (r0 x : Nat) (h0 : r0 < 8) :
    update_flags (regWrite r r0 x) r0 R_PC = r R_PC := by
  rw [update_flags_ne _ _ _ pc_ne_cond2]
  exact regWrite_ne _ _ _ _ (by unfold R_PC; omega)

theorem exec_trap_pc (instr : Nat) (h1 : Host) (s1 : Machine) :
    (exec_trap instr h1 s1).1.reg R_PC = s1.reg R_PC := by
  simp only [exec_trap]
  split_ifs <;>
    simp [update_flags_ne _ _ _ pc_ne_cond2, regWrite_ne _ _ _ _ pc_ne_r0,
      regWrite_ne _ _ _ _ pc_ne_r7]

/-- Claim C2 (amended): fetch reads `mem[PC]` and increments `PC` before
decode, so `PC` after a non-aborting instruction is `PC + 1 + Δ` modulo
`2^16`: `Δ = 0` for all non-control instructions (including every trap)
and for an untaken `BR`; `Δ` is the sign-extended offset for a taken `BR`
and for PC-relative `JSR`; `JMP` sets `PC` to `R[BaseR]`; register-form
`JSR` sets `PC` to `R[BaseR]` as read after `R7` has been overwritten
with the incremented `PC`, so with `BaseR = R7` the next fetch is at
`PC + 1`. -/
theorem c2_pc_update (h : Host) (s : Machine) :
    ((fetched h s >>> 12 = OP_ADD ∨ fetched h s >>> 12 = OP_AND ∨
      fetched h s >>> 12 = OP_NOT ∨ fetched h s >>> 12 = OP_LD ∨
      fetched h s >>> 12 = OP_LDI ∨ fetched h s >>> 12 = OP_LDR ∨
      fetched h s >>> 12 = OP_LEA ∨ fetched h s >>> 12 = OP_ST ∨
      fetched h s >>> 12 = OP_STI ∨ fetched h s >>> 12 = OP_STR ∨
      fetched h s >>> 12 = OP_TRAP) →
      stepReg h s R_PC = some ((s.reg R_PC + 1) % 65536)) ∧
    (fetched h s >>> 12 = OP_BR →
      (((fetched h s >>> 9) &&& 0x7) &&& s.reg R_COND ≠ 0 →
        stepReg h s R_PC = some ((s.reg R_PC + 1 +
          sign_extend (fetched h s &&& 0x1FF) 9) % 65536)) ∧
      (((fetched h s >>> 9) &&& 0x7) &&& s.reg R_COND = 0 →
        stepReg h s R_PC = some ((s.reg R_PC + 1) % 65536))) ∧
    (fetched h s >>> 12 = OP_JMP →
      stepReg h s R_PC =
        some (s.reg ((fetched h s >>> 6) &&& 0x7) % 65536)) ∧
    (fetched h s >>> 12 = OP_JSR →
      ((fetched h s >>> 11) &&& 0x1 ≠ 0 →
        stepReg h s R_PC = some ((s.reg R_PC + 1 +
          sign_extend (fetched h s &&& 0x7FF) 11) % 65536)) ∧
      ((fetched h s >>> 11) &&& 0x1 = 0 →
        (fetched h s >>> 6) &&& 0x7 ≠ 7 →
        stepReg h s R_PC =
          some (s.reg ((fetched h s >>> 6) &&& 0x7) % 65536)) ∧
      ((fetched h s >>> 11) &&& 0x1 = 0 →
        (fetched h s >>> 6) &&& 0x7 = 7 →
        stepReg h s R_PC = some ((s.reg R_PC + 1) % 65536))) := by
  have hr9 : (fetched h s >>> 9) &&& 0x7 < 8 := Nat.lt_succ_of_le Nat.and_le_right
  have hr6 : (fetched h s >>> 6) &&& 0x7 < 8 := Nat.lt_succ_of_le Nat.and_le_right
  refine ⟨?_, ?_, ?_, ?_⟩
  · rintro (hc | hc | hc | hc | hc | hc | hc | hc | hc | hc | hc)
    · unfold stepReg
      rw [step_op_add h s hc]
      simp only [Option.map_some', exec_add]
      split_ifs <;> rw [pc_after_flags _ _ _ hr9, postFetch_pc]
    · unfold stepReg
      rw [step_op_and h s hc]
      simp only [Option.map_some', exec_and]
      split_ifs <;> rw [pc_after_flags _ _ _ hr9, postFetch_pc]
    · unfold stepReg
      rw [step_op_not h s hc]
      simp only [Option.map_some', exec_not]
      rw [pc_after_flags _ _ _ hr9, postFetch_pc]
    · unfold stepReg
      rw [step_op_ld h s hc]
      simp only [Option.map_some', exec_ld]
      rw [pc_after_flags _ _ _ hr9, postFetch_pc]
    · unfold stepReg
      rw [step_op_ldi h s hc]
      simp only [Option.map_some', exec_ldi]
      rw [pc_after_flags _ _ _ hr9, postFetch_pc]
    · unfold stepReg
      rw [step_op_ldr h s hc]
      simp only [Option.map_some', exec_ldr]
      rw [pc_after_flags _ _ _ hr9, postFetch_pc]
    · unfold stepReg
      rw [step_op_lea h s hc]
      simp only [Option.map_some', exec_lea]
      rw [pc_after_flags _ _ _ hr9, postFetch_pc]
    · unfold stepReg
      rw [step_op_st h s hc]
      simp only [Option.map_some', exec_st]
      rw [postFetch_pc]
    · unfold stepReg
      rw [step_op_sti h s hc]
      simp only [Option.map_some', exec_sti]
      rw [postFetch_pc]
    · unfold stepReg
      rw [step_op_str h s hc]
      simp only [Option.map_some', exec_str]
      rw [postFetch_pc]
    · unfold stepReg
      rw [step_op_trap h s hc]
      simp only [Option.map_some']
      rw [exec_trap_pc, postFetch_pc]
  · intro hc
    exact ⟨(c5_br_spec h s hc).1, (c5_br_spec h s hc).2.1⟩
  · intro hc
    unfold stepReg
    rw [step_op_jmp h s hc]
    simp only [Option.map_some', exec_jmp]
    rw [regWrite_eq]
    rw [postFetch_reg_ne h s _ (by unfold R_PC; omega)]
  · intro hc
    have hs := step_op_jsr h s hc
    refine ⟨?_, ?_, ?_⟩
    · intro hb
      unfold stepReg
      rw [hs]
      simp only [Option.map_some', exec_jsr]
      rw [if_neg hb]
      simp only [Option.some.injEq]
      show regWrite (regWrite (postFetch h s).reg R_R7
        ((postFetch h s).reg R_PC)) R_PC
        (regWrite (postFetch h s).reg R_R7 ((postFetch h s).reg R_PC) R_PC +
          sign_extend (fetched h s &&& 0x7FF) 11) R_PC = _
      rw [regWrite_eq, regWrite_ne _ _ _ _ pc_ne_r7, postFetch_pc,
        Nat.mod_add_mod]
    · intro hb hr7
      have hr68 : (fetched h s >>> 6) &&& 0x7 ≠ R_PC := by
        unfold R_PC; omega
      have hr67 : (fetched h s >>> 6) &&& 0x7 ≠ R_R7 := by
        unfold R_R7; exact hr7
      unfold stepReg
      rw [hs]
      simp only [Option.map_some', exec_jsr]
      rw [if_pos hb]
      simp only [Option.some.injEq]
      show regWrite (regWrite (postFetch h s).reg R_R7
        ((postFetch h s).reg R_PC)) R_PC
        (regWrite (postFetch h s).reg R_R7 ((postFetch h s).reg R_PC)
          ((fetched h s >>> 6) &&& 0x7)) R_PC = _
      rw [regWrite_eq, regWrite_ne _ _ _ _ hr67,
        postFetch_reg_ne h s _ hr68]
    · intro hb hr7
      unfold stepReg
      rw [hs]
      simp only [Option.map_some', exec_jsr]
      rw [if_pos hb]
      simp only [Option.some.injEq]
      show regWrite (regWrite (postFetch h s).reg R_R7
        ((postFetch h s).reg R_PC)) R_PC
        (regWrite (postFetch h s).reg R_R7 ((postFetch h s).reg R_PC)
          ((fetched h s >>> 6) &&& 0x7)) R_PC = _
      rw [hr7, regWrite_eq]
      show regWrite (postFetch h s).reg R_R7
        ((postFetch h s).reg R_PC) R_R7 % 65536 = _
      rw [regWrite_eq, postFetch_pc]
      omega

/-- counterexample to C2 as stated: for register-form `JSR` with
`BaseR = R7`, the pre-state `R[BaseR]` is `0x1234`, so the claim's
`Δ = R[BaseR] − (PC_before + 1)` predicts `PC = 0x1234` (4660), but the
code continues at `PC_before + 1 = 0x3001` (12289), because `R7` was
already overwritten with the return address when the jump read it. -/
theorem c2_pc_update_counterexample :
    (fetched host0 jsrrMachine >>> 12 = OP_JSR ∧
      (fetched host0 jsrrMachine >>> 11) &&& 0x1 = 0 ∧
      (fetched host0 jsrrMachine >>> 6) &&& 0x7 = 7 ∧
      jsrrMachine.reg ((fetched host0 jsrrMachine >>> 6) &&& 0x7) = 4660) ∧
    stepReg host0 jsrrMachine R_PC = some 12289 ∧ (12289 : Nat) ≠ 4660 :=
  ⟨⟨by decide, by decide, by decide, by decide⟩, by decide, by decide⟩

/-- witness for the amended C2: `JSRR R7` continues at `PC + 1`. -/
theorem c2_pc_update_witness :
    (fetched host0 jsrrMachine >>> 12 = OP_JSR ∧
      (fetched host0 jsrrMachine >>> 11) &&& 0x1 = 0 ∧
      (fetched host0 jsrrMachine >>> 6) &&& 0x7 = 7) ∧
    stepReg host0 jsrrMachine R_PC = some 12289 := by
  have h := ((c2_pc_update host0 jsrrMachine).2.2.2 (by decide)).2.2
    (by decide) (by decide)
  refine ⟨⟨by decide, by decide, by decide⟩, ?_⟩
  rw [h]
  decide

theorem swap16_bytes (lo hi : Nat) (hlo : lo < 256) (hhi : hi < 256) :
    swap16 (lo + 256 * hi) = 256 * lo + hi := by
  unfold swap16
  have h1 : (lo + 256 * hi) >>> 8 = hi := by
    rw [Nat.shiftRight_eq_div_pow]
    norm_num
    omega
  have h2 : (lo + 256 * hi) <<< 8 = 256 * (lo + 256 * hi) := by
    rw [Nat.shiftLeft_eq]
    ring
  have hor : 256 * (lo + 256 * hi) ||| hi = 256 * (lo + 256 * hi) + hi := by
    have h := Nat.mul_add_lt_is_or (show hi < 2 ^ 8 by omega) (lo + 256 * hi)
    norm_num at h
    omega
  rw [h1, h2, hor]
  omega

theorem load_words_spec (cnt : Nat) (bytes : List Nat) (m : Nat → Nat)
    (addr : Nat) :
    (∀ i, i < min cnt (bytes.length / 2) →
      load_words m addr cnt bytes (addr + i) =
        (bytes.getD (2 * i) 0 % 256) * 256 + bytes.getD (2 * i + 1) 0 % 256) ∧
    (∀ a, a < addr ∨ addr + min cnt (bytes.length / 2) ≤ a →
      load_words m addr cnt bytes a = m a) := by
  induction cnt generalizing bytes m addr with
  | zero =>
    constructor
    · intro i hi
      omega
    · intro a _
      cases bytes with
      | nil => rfl
      | cons b0 tl => cases tl with
        | nil => rfl
        | cons b1 rest => rfl
  | succ c ih =>
    cases bytes with
    | nil =>
      constructor
      · intro i hi
        have h0 : ([] : List Nat).length = 0 := rfl
        omega
      · intro a _
        rfl
    | cons b0 tl =>
      cases tl with
      | nil =>
        constructor
        · intro i hi
          have h0 : (b0 :: ([] : List Nat)).length = 1 := rfl
          omega
        · intro a _
          rfl
      | cons b1 rest =>
        have hred : load_words m addr (c + 1) (b0 :: b1 :: rest) =
            load_words (mem_write m addr ((b0 % 256) * 256 + (b1 % 256)))
              (addr + 1) c rest := rfl
        have hlen : (b0 :: b1 :: rest).length = rest.length + 2 := by
          simp
        have hmin : min (c + 1) ((b0 :: b1 :: rest).length / 2) =
            min c (rest.length / 2) + 1 := by
          rw [hlen]
          omega
        have ihm := ih rest (mem_write m addr ((b0 % 256) * 256 + (b1 % 256)))
          (addr + 1)
        constructor
        · intro i hi
          rw [hmin] at hi
          rw [hred]
          cases i with
          | zero =>
            simp only [Nat.mul_zero, Nat.add_zero]
            rw [ihm.2 addr (Or.inl (by omega))]
            show (if addr = addr then
              ((b0 % 256) * 256 + (b1 % 256)) % 65536 else m addr) = _
            rw [if_pos rfl, Nat.mod_eq_of_lt (by omega)]
            simp [List.getD_cons_zero, List.getD_cons_succ]
          | succ j =>
            have hj : j < min c (rest.length / 2) := by omega
            have hh := ihm.1 j hj
            have haddr : addr + (j + 1) = addr + 1 + j := by omega
            have h2j : 2 * (j + 1) = 2 * j + 1 + 1 := by omega
            rw [haddr, hh, h2j]
            simp [List.getD_cons_succ]
        · intro a ha
          rw [hmin] at ha
          rw [hred, ihm.2 a (by omega)]
          show (if a = addr then
            ((b0 % 256) * 256 + (b1 % 256)) % 65536 else m a) = m a
          rw [if_neg (by omega)]

/-- Claim C3 (amended): for a stream whose first two bytes give the
big-endian origin, the loader stores the subsequent bytes two at a time as
big-endian words starting at `origin`, stopping at end-of-stream (a
trailing odd byte is dropped) or after `(2^16 − origin) mod 2^16` words —
so for `origin = 0` the word count wraps to 0 and nothing is loaded; all
memory outside the loaded range is unchanged. -/
theorem c3_read_image_file_spec (m : Nat → Nat) (b0 b1 : Nat)
    (rest : List Nat) (hb0 : b0 < 256) (hb1 : b1 < 256) :
    (∀ i, i < min ((65536 - (256 * b0 + b1)) % 65536) (rest.length / 2) →
      read_image_file m (b0 :: b1 :: rest) (256 * b0 + b1 + i) =
        (rest.getD (2 * i) 0 % 256) * 256 + rest.getD (2 * i + 1) 0 % 256) ∧
    (∀ a, a < 256 * b0 + b1 ∨
        256 * b0 + b1 + min ((65536 - (256 * b0 + b1)) % 65536)
          (rest.length / 2) ≤ a →
      read_image_file m (b0 :: b1 :: rest) a = m a) := by
  have horigin : swap16 ((b0 % 256) + 256 * (b1 % 256)) = 256 * b0 + b1 := by
    rw [Nat.mod_eq_of_lt hb0, Nat.mod_eq_of_lt hb1]
    exact swap16_bytes b0 b1 hb0 hb1
  have hrw : read_image_file m (b0 :: b1 :: rest) =
      load_words m (256 * b0 + b1) ((65536 - (256 * b0 + b1)) % 65536)
        rest := by
    show load_words m (swap16 ((b0 % 256) + 256 * (b1 % 256)))
      ((65536 - swap16 ((b0 % 256) + 256 * (b1 % 256))) % 65536) rest = _
    rw [horigin]
  rw [hrw]
  constructor
  · intro i hi
    exact (load_words_spec ((65536 - (256 * b0 + b1)) % 65536) rest m
      (256 * b0 + b1)).1 i hi
  · intro a ha
    exact (load_words_spec ((65536 - (256 * b0 + b1)) % 65536) rest m
      (256 * b0 + b1)).2 a ha

/-- counterexample to C3 as stated: the stream `[0x00, 0x00, 0x12, 0x34]`
has origin 0 and one complete word `0x1234`, and `origin + 1` does not
overflow the address space, yet the loader stores nothing: memory at the
origin keeps its old value 0 instead of 4660, because the word budget
`(uint16_t)(0x10000 - 0)` wraps to 0. -/
theorem c3_read_image_file_counterexample :
    (([18, 52] : List Nat).length / 2 = 1 ∧ (0 : Nat) + 1 ≤ 65536 ∧
      ((18 : Nat) % 256) * 256 + (52 : Nat) % 256 = 4660) ∧
    read_image_file mem0 [0, 0, 18, 52] 0 = 0 ∧
    read_image_file mem0 [0, 0, 18, 52] 0 ≠ 4660 := by
  refine ⟨⟨by decide, by decide, by decide⟩, ?_, ?_⟩ <;> decide

/-- witness for the amended C3: loading `[0x30, 0x00, 0xF0, 0x25]`
(origin `0x3000`, one word `0xF025`) stores 61477 at `0x3000` and leaves
address 0 untouched. -/
theorem c3_read_image_file_spec_witness :
    ((48 : Nat) < 256 ∧ (0 : Nat) < 256) ∧
    read_image_file mem0 [48, 0, 240, 37] 12288 = 61477 ∧
    read_image_file mem0 [48, 0, 240, 37] 0 = 0 := by
  have h := c3_read_image_file_spec mem0 48 0 [240, 37] (by decide) (by decide)
  refine ⟨⟨by decide, by decide⟩, ?_, ?_⟩
  · have h1 := h.1 0 (by decide)
    simpa using h1
  · have h2 := h.2 0 (Or.inl (by decide))
    simpa using h2
